import Mathlib

/-!
Verification of the layer/combinator model of the trax layers introduction
notebook (src/trax/layers/intro.ipynb). Tensors are modelled as a shape
(list of axis lengths) together with flat row-major integer data. Layers
are modelled as functions from lists of tensors to lists of tensors with
declared input and output arities, and the combinators Serial, Branch and
Residual are modelled by their documented stack semantics.
-/

set_option autoImplicit false

/-- Element type tag of a tensor, mirroring a numpy dtype. -/
inductive Dtype where
  | int32
  | float32
deriving DecidableEq, Repr

/-- A tensor: a shape (list of axis lengths) and flat row-major data.
Element values are modelled as integers. -/
structure Tensor where
  shape : List Nat
  data : List Int
deriving DecidableEq, Repr

/-- Elementwise max-zero transform of a tensor, modelled from the spec:
the body of tl.Relu is not under src/; the notebook only applies it, and
the spec calls it the elementwise max-zero transform. -/
def reluT (t : Tensor) : Tensor :=
  ⟨t.shape, t.data.map fun v => max v 0⟩

/-- Multiply every element of a tensor by a constant. -/
def scaleT (c : Int) (t : Tensor) : Tensor :=
  ⟨t.shape, t.data.map fun v => c * v⟩

/-- Elementwise sum of two same-shaped tensors. -/
def addT (a b : Tensor) : Tensor :=
  ⟨a.shape, List.zipWith (fun u v => u + v) a.data b.data⟩

/-- Elementwise maximum of two same-shaped tensors. -/
def maxT (a b : Tensor) : Tensor :=
  ⟨a.shape, List.zipWith (fun u v => max u v) a.data b.data⟩

/-- Elementwise greatest common divisor of two same-shaped tensors. -/
def gcdT (a b : Tensor) : Tensor :=
  ⟨a.shape, List.zipWith (fun u v => (Int.gcd u v : Int)) a.data b.data⟩

/-- A layer: input arity, output arity, and the forward function on its
inputs, modelled from the spec and the base Layer docstring in the
notebook (the Layer class body is not under src/). -/
structure Layer where
  n_in : Nat
  n_out : Nat
  f : List Tensor → List Tensor

/-- Arity honesty of a layer: given exactly its declared number of inputs
it produces exactly its declared number of outputs (spec section 4.1). -/
def wfLayer (L : Layer) : Prop :=
  ∀ xs : List Tensor, xs.length = L.n_in → (L.f xs).length = L.n_out

/-- The Relu layer: one input, one output, elementwise max with zero. -/
def reluLayer : Layer :=
  ⟨1, 1, fun xs => xs.map reluT⟩

/-- The Times100 layer from the Branch example cell of the notebook. -/
def times100Layer : Layer :=
  ⟨1, 1, fun xs => xs.map (scaleT 100)⟩

/-- The identity (no-op) layer used as the default shortcut path. -/
def idLayer : Layer :=
  ⟨1, 1, fun xs => xs⟩

/-- The Add layer: pops two tensors and pushes their elementwise sum. -/
def addLayerL : Layer :=
  ⟨2, 1, fun xs =>
    match xs with
    | [a, b] => [addT a b]
    | _ => []⟩

/-- The Gcd layer from Example 7, a two-input Fn layer. -/
def gcdLayer : Layer :=
  ⟨2, 1, fun xs =>
    match xs with
    | [a, b] => [gcdT a b]
    | _ => []⟩

/-- The SumAndMax layer from Example 8, a two-input two-output Fn layer. -/
def sumAndMaxLayer : Layer :=
  ⟨2, 2, fun xs =>
    match xs with
    | [a, b] => [addT a b, maxT a b]
    | _ => []⟩

/-- The example input matrix used with Relu in the notebook. -/
def reluExampleX : Tensor :=
  ⟨[2, 5], [-2, -1, 0, 1, 2, -20, -10, 0, 10, 20]⟩

/-- The documented Relu output on the example input matrix. -/
def reluExampleY : Tensor :=
  ⟨[2, 5], [0, 0, 0, 1, 2, 0, 0, 0, 10, 20]⟩

/-- C9: a layer with no weights is a deterministic pure function: two
calls on identical inputs yield identical outputs; in particular the
elementwise max-zero layer applied to the example matrix
[[-2,-1,0,1,2],[-20,-10,0,10,20]] yields [[0,0,0,1,2],[0,0,0,10,20]]. -/
theorem relu_pure_and_example (x1 x2 : Tensor) (h : x1 = x2) :
    reluLayer.f [x1] = reluLayer.f [x2] ∧
    reluLayer.f [reluExampleX] = [reluExampleY] := by
  subst h
  refine ⟨rfl, ?_⟩
  decide

/-- Witness for C9 at the concrete example input. -/
theorem relu_pure_and_example_wit :
    reluLayer.f [reluExampleX] = reluLayer.f [reluExampleX] ∧
    reluLayer.f [reluExampleX] = [reluExampleY] :=
  relu_pure_and_example reluExampleX reluExampleX rfl

/-- Apply one layer to a data stack: pop the layer's n_in items off the
top, call the layer on them, and push its outputs back on (Serial
docstring in the notebook). -/
def applyLayer (L : Layer) (stack : List Tensor) : List Tensor :=
  L.f (stack.take L.n_in) ++ stack.drop L.n_in

/-- Apply a list of layers serially to a data stack, each sublayer
popping its inputs and pushing its outputs (Serial docstring). -/
def serialApply (ls : List Layer) (stack : List Tensor) : List Tensor :=
  ls.foldl (fun s L => applyLayer L s) stack

/-- Running stack simulation used to compute the arities of a Serial
combinator, modelled from the spec: the Serial class body is not under
src/; the spec says arities are computed by simulating the stack
transformation. The accumulator carries the running maximum depth and
the running net total. -/
def serialScan : List Layer → Int × Int → Int × Int
  | [], acc => acc
  | L :: rest, acc =>
      serialScan rest (max acc.1 (acc.2 + L.n_in), acc.2 + L.n_in - L.n_out)

/-- Input arity of a Serial combinator: the maximum stack depth reached. -/
def serialNIn (ls : List Layer) : Nat :=
  (serialScan ls (0, 0)).1.toNat

/-- Output arity of a Serial combinator: maximum depth minus final net
deficit. -/
def serialNOut (ls : List Layer) : Nat :=
  ((serialScan ls (0, 0)).1 - (serialScan ls (0, 0)).2).toNat

/-- The Serial combinator as a layer, modelled from the spec and the
Serial docstring in the notebook (the class body is not under src/). -/
def Serial (ls : List Layer) : Layer :=
  ⟨serialNIn ls, serialNOut ls, serialApply ls⟩

/-- C2: for layers A and B with matching arities, Serial(A, B) applied to
inputs accepted by A computes exactly B after A (function composition). -/
theorem serial_is_composition (A B : Layer) (xs : List Tensor)
    (hA : wfLayer A) (hx : xs.length = A.n_in) (hAB : A.n_out = B.n_in) :
    (Serial [A, B]).f xs = B.f (A.f xs) := by
  have h1 : applyLayer A xs = A.f xs := by
    unfold applyLayer
    rw [← hx, List.take_length, List.drop_length, List.append_nil]
  have hlen : (A.f xs).length = B.n_in := by
    rw [hA xs hx, hAB]
  show serialApply [A, B] xs = B.f (A.f xs)
  unfold serialApply
  simp only [List.foldl_cons, List.foldl_nil, h1]
  unfold applyLayer
  rw [← hlen, List.take_length, List.drop_length, List.append_nil]

/-- Arity honesty of the Relu layer. -/
theorem reluLayer_wf : wfLayer reluLayer := by
  intro xs h
  simpa [reluLayer] using h

/-- Arity honesty of the Times100 layer. -/
theorem times100Layer_wf : wfLayer times100Layer := by
  intro xs h
  simpa [times100Layer] using h

/-- Witness for C2: Serial of Relu then Times100 on the example matrix. -/
theorem serial_is_composition_wit :
    (Serial [reluLayer, times100Layer]).f [reluExampleX] =
      times100Layer.f (reluLayer.f [reluExampleX]) :=
  serial_is_composition reluLayer times100Layer [reluExampleX]
    reluLayer_wf rfl rfl

/-- Input arity of a Branch combinator: the maximum stack depth read by
any branch (each branch reads the top of the same stack), modelled from
the spec and the Branch docstring (the Branch body is not under src/). -/
def branchNIn (ls : List Layer) : Nat :=
  (ls.map Layer.n_in).foldr max 0

/-- Output arity of a Branch combinator: the sum of the branch output
arities. -/
def branchNOut (ls : List Layer) : Nat :=
  (ls.map Layer.n_out).sum

/-- Forward function of a Branch combinator: each branch is applied to
the items it needs from the top of the shared inputs, and the branch
outputs are concatenated in branch order (Branch docstring). -/
def branchF (ls : List Layer) (xs : List Tensor) : List Tensor :=
  (ls.map fun L => L.f (xs.take L.n_in)).flatten

/-- The Branch combinator as a layer, modelled from the spec and the
Branch docstring in the notebook (the Branch body is not under src/). -/
def Branch (ls : List Layer) : Layer :=
  ⟨branchNIn ls, branchNOut ls, branchF ls⟩

/-- Helper: with honest branches and enough stack items, the Branch
forward output count is the sum of the branch output arities. -/
theorem branchF_length (ls : List Layer) (xs : List Tensor)
    (hwf : ∀ L ∈ ls, wfLayer L) (hx : branchNIn ls ≤ xs.length) :
    (branchF ls xs).length = branchNOut ls := by
  induction ls with
  | nil => rfl
  | cons L rest ih =>
      have hmax : max L.n_in (branchNIn rest) ≤ xs.length := hx
      have hL : L.n_in ≤ xs.length := le_trans (le_max_left _ _) hmax
      have hrest : branchNIn rest ≤ xs.length := le_trans (le_max_right _ _) hmax
      have htake : (xs.take L.n_in).length = L.n_in := by
        simp [List.length_take, Nat.min_eq_left hL]
      have hout := hwf L (List.mem_cons_self _ _) _ htake
      have ihr := ih (fun M hM => hwf M (List.mem_cons_of_mem _ hM)) hrest
      show (L.f (xs.take L.n_in) :: (rest.map fun M => M.f (xs.take M.n_in))).flatten.length
          = L.n_out + branchNOut rest
      rw [List.flatten_cons, List.length_append, hout]
      exact congrArg (L.n_out + ·) ihr

/-- C5: for any list of honest branches, a Branch given exactly its input
arity (the maximum positional stack depth read by any branch) produces
exactly its output arity (the sum of the branch output arities) many
outputs, concatenated in branch order. -/
theorem branch_arities (ls : List Layer) (xs : List Tensor)
    (hwf : ∀ L ∈ ls, wfLayer L) (hx : xs.length = (Branch ls).n_in) :
    ((Branch ls).f xs).length = (Branch ls).n_out :=
  branchF_length ls xs hwf (le_of_eq hx.symm)

/-- A three-input one-output layer used to exercise Branch arities. -/
def g31 : Layer :=
  ⟨3, 1, fun xs => [xs.foldl addT ⟨[], []⟩]⟩

/-- A two-input two-output layer used to exercise Branch arities. -/
def h22 : Layer :=
  ⟨2, 2, fun xs => xs.map reluT⟩

/-- Arity honesty of the three-input example layer. -/
theorem g31_wf : wfLayer g31 := by
  intro xs h
  rfl

/-- Arity honesty of the two-input two-output example layer. -/
theorem h22_wf : wfLayer h22 := by
  intro xs h
  simpa [h22] using h

/-- Witness for C5: branches with arities (1 in, 1 out), (3 in, 1 out),
(2 in, 2 out) give a Branch with 3 inputs and 4 outputs. -/
theorem branch_arities_wit :
    ((Branch [reluLayer, g31, h22]).f
        [reluExampleX, reluExampleX, reluExampleX]).length =
      (Branch [reluLayer, g31, h22]).n_out ∧
    (Branch [reluLayer, g31, h22]).n_in = 3 ∧
    (Branch [reluLayer, g31, h22]).n_out = 4 := by
  refine ⟨branch_arities _ _ ?_ rfl, rfl, rfl⟩
  intro L hL
  rcases List.mem_cons.1 hL with h | hL
  · exact h ▸ reluLayer_wf
  rcases List.mem_cons.1 hL with h | hL
  · exact h ▸ g31_wf
  rcases List.mem_cons.1 hL with h | hL
  · exact h ▸ h22_wf
  · exact absurd hL (List.not_mem_nil L)

/-- C4: Branch(F, G) on a single input a produces exactly the pair
(F(a), G(a)), in that branch order. -/
theorem branch_pair (F G : Layer) (a fa ga : Tensor)
    (hF1 : F.n_in = 1) (hG1 : G.n_in = 1)
    (hFa : F.f [a] = [fa]) (hGa : G.f [a] = [ga]) :
    (Branch [F, G]).f [a] = [fa, ga] := by
  show branchF [F, G] [a] = [fa, ga]
  simp [branchF, hF1, hG1, hFa, hGa]

/-- Witness for C4: Branch of Relu and Times100 on a concrete vector. -/
theorem branch_pair_wit :
    (Branch [reluLayer, times100Layer]).f [⟨[3], [-1, 0, 2]⟩] =
      [⟨[3], [0, 0, 2]⟩, ⟨[3], [-100, 0, 200]⟩] :=
  branch_pair reluLayer times100Layer ⟨[3], [-1, 0, 2]⟩ _ _ rfl rfl
    (by decide) (by decide)

/-- The main path of a Residual: the single layer when one is given,
otherwise the Serial combination of the series, following the Residual
body shown in the notebook. -/
def seriesOf : List Layer → Layer
  | [l] => l
  | ls => Serial ls

/-- The Residual combinator, translated from the body shown in the
notebook: Serial of a Branch of the shortcut path (identity when none is
supplied) and the main series, followed by elementwise Add. -/
def Residual (shortcut : Option Layer) (ls : List Layer) : Layer :=
  Serial [Branch [shortcut.getD idLayer, seriesOf ls], addLayerL]

/-- Definition following the spec text for Residual with the default
shortcut: the output on x is x plus the output of the serial main path
on x. -/
def residualSpec (ls : List Layer) (x : Tensor) : List Tensor :=
  match serialApply ls [x] with
  | [y] => [addT x y]
  | _ => []

/-- Helper: the Serial arity scan over one-input one-output layers keeps
a zero running total and a running maximum of one. -/
theorem serialScan_ones (ls : List Layer)
    (h : ∀ l ∈ ls, l.n_in = 1 ∧ l.n_out = 1) :
    ∀ m : Int, ls ≠ [] → serialScan ls (m, 0) = (max m 1, 0) := by
  induction ls with
  | nil =>
      intro m hne
      exact absurd rfl hne
  | cons L rest ih =>
      intro m _
      obtain ⟨h1, h2⟩ := h L (List.mem_cons_self _ _)
      have e1 : ((L.n_in : Int)) = 1 := by rw [h1]; exact Nat.cast_one
      have e2 : ((L.n_out : Int)) = 1 := by rw [h2]; exact Nat.cast_one
      rw [serialScan, e1, e2]
      have harg : ((max m (0 + 1) : Int), (0 + 1 - 1 : Int)) = (max m 1, 0) := by
        norm_num
      rw [harg]
      cases rest with
      | nil => rw [serialScan]
      | cons M r2 =>
          rw [ih (fun l hl => h l (List.mem_cons_of_mem _ hl)) (max m 1)
              (List.cons_ne_nil _ _), max_assoc, max_self]

/-- Helper: the main path of a Residual over one-input one-output layers
has input arity one. -/
theorem seriesOf_n_in (ls : List Layer)
    (h : ∀ l ∈ ls, l.n_in = 1 ∧ l.n_out = 1) (hne : ls ≠ []) :
    (seriesOf ls).n_in = 1 := by
  rcases ls with _ | ⟨l, _ | ⟨m, r⟩⟩
  · exact absurd rfl hne
  · exact (h l (List.mem_cons_self _ _)).1
  · show serialNIn (l :: m :: r) = 1
    unfold serialNIn
    rw [serialScan_ones (l :: m :: r) h 0 (List.cons_ne_nil _ _)]
    rfl

/-- Helper: the main path of a Residual applied to a single tensor
computes the serial application of the series to that tensor. -/
theorem seriesOf_f (ls : List Layer) (x : Tensor)
    (h : ∀ l ∈ ls, l.n_in = 1 ∧ l.n_out = 1) :
    (seriesOf ls).f [x] = serialApply ls [x] := by
  rcases ls with _ | ⟨l, _ | ⟨m, r⟩⟩
  · rfl
  · show l.f [x] = applyLayer l [x]
    unfold applyLayer
    rw [(h l (List.mem_cons_self _ _)).1]
    simp
  · rfl

/-- C6: Residual is the composition Serial(Branch(shortcut, series),
Add()); with the default identity shortcut its output on x is x plus the
serial output of the layer series on x, as the spec-level residual
description states. -/
theorem residual_eq_spec (ls : List Layer) (x y : Tensor)
    (hne : ls ≠ []) (h1 : ∀ l ∈ ls, l.n_in = 1 ∧ l.n_out = 1)
    (hy : serialApply ls [x] = [y]) :
    (Residual none ls).f [x] = [addT x y] ∧
    (Residual none ls).f [x] = residualSpec ls x := by
  have hSin : (seriesOf ls).n_in = 1 := seriesOf_n_in ls h1 hne
  have hSf : (seriesOf ls).f [x] = [y] := (seriesOf_f ls x h1).trans hy
  have step1 : applyLayer (Branch [idLayer, seriesOf ls]) [x] = [x, y] := by
    show branchF [idLayer, seriesOf ls] ([x].take (branchNIn [idLayer, seriesOf ls]))
        ++ [x].drop (branchNIn [idLayer, seriesOf ls]) = [x, y]
    simp [branchNIn, branchF, idLayer, hSin, hSf]
  have main : (Residual none ls).f [x] = [addT x y] := by
    calc (Residual none ls).f [x]
        = applyLayer addLayerL (applyLayer (Branch [idLayer, seriesOf ls]) [x]) := rfl
      _ = applyLayer addLayerL [x, y] := by rw [step1]
      _ = [addT x y] := rfl
  refine ⟨main, ?_⟩
  rw [main]
  unfold residualSpec
  rw [hy]

/-- Witness for C6: Residual of a single Times100 layer on the vector
[1, 2, 3] gives [101, 202, 303]. -/
theorem residual_eq_spec_wit :
    (Residual none [times100Layer]).f [⟨[3], [1, 2, 3]⟩] =
      [addT ⟨[3], [1, 2, 3]⟩ ⟨[3], [100, 200, 300]⟩] ∧
    (Residual none [times100Layer]).f [⟨[3], [1, 2, 3]⟩] =
      residualSpec [times100Layer] ⟨[3], [1, 2, 3]⟩ :=
  residual_eq_spec [times100Layer] ⟨[3], [1, 2, 3]⟩ ⟨[3], [100, 200, 300]⟩
    (List.cons_ne_nil _ _)
    (by
      intro l hl
      rcases List.mem_cons.1 hl with h | h
      · exact h ▸ ⟨rfl, rfl⟩
      · exact absurd h (List.not_mem_nil l))
    (by decide)

/-- Shape and dtype descriptor of a tensor, used for initialization. -/
structure ShapeDtype where
  shape : List Nat
  dtype : Dtype
deriving DecidableEq, Repr

/-- Input accepted by the signature function: any object carrying shape
and dtype attributes, or a list or tuple of such objects (the isList
flag records which sequence kind was passed). -/
inductive SigInput where
  | tensorLike (shape : List Nat) (dtype : Dtype)
  | seqOf (isList : Bool) (items : List (List Nat × Dtype))

/-- Output of the signature function: a single ShapeDtype descriptor or
a tuple of descriptors. -/
inductive Signature where
  | single (sd : ShapeDtype)
  | tup (sds : List ShapeDtype)
deriving DecidableEq, Repr

/-- Modelled from the spec: the signature body is not under src/; the
docstring in the notebook states that a signature is either a ShapeDtype
instance or a tuple of ShapeDtype instances, permissive on inputs
(lists or tuples accepted) and strict on outputs (only ShapeDtype, and
only tuples, never lists). -/
def signature : SigInput → Signature
  | SigInput.tensorLike s d => Signature.single ⟨s, d⟩
  | SigInput.seqOf _ items => Signature.tup (items.map fun it => ⟨it.1, it.2⟩)

/-- Whether a signature value is a tuple of descriptors. -/
def Signature.isTuple : Signature → Bool
  | Signature.single _ => false
  | Signature.tup _ => true

/-- Whether a signature input is a list or tuple of objects. -/
def SigInput.isSeq : SigInput → Bool
  | SigInput.tensorLike _ _ => false
  | SigInput.seqOf _ _ => true

/-- Counterexample for C1: on a single tensor-like input the signature
function returns a single ShapeDtype descriptor, not a tuple. -/
theorem signature_single_not_tuple :
    (signature (SigInput.tensorLike [2, 5] Dtype.int32)).isTuple = false := rfl

/-- C1 (amended): the signature function returns a tuple exactly when
the input is a list or tuple of objects; list and tuple inputs with the
same items normalize to the same tuple output; a single tensor-like
input yields a single descriptor preserving its shape and dtype. -/
theorem signature_normalization :
    (∀ o : SigInput, (signature o).isTuple = o.isSeq) ∧
    (∀ items : List (List Nat × Dtype),
      signature (SigInput.seqOf true items) =
        signature (SigInput.seqOf false items)) ∧
    (∀ (s : List Nat) (d : Dtype),
      signature (SigInput.tensorLike s d) = Signature.single ⟨s, d⟩) := by
  refine ⟨?_, fun items => rfl, fun s d => rfl⟩
  intro o
  cases o <;> rfl

/-- Result of an init call: newly created weight values, or the
EMPTY_WEIGHTS sentinel meaning already initialized. -/
inductive WeightsOut where
  | weights (w : List Int)
  | emptyWeights
deriving DecidableEq, Repr

/-- A layer instance for initialization purposes: its deterministic
weight-creation function (from an input signature, here a shape) and its
currently stored weights, absent before the first init call. -/
structure LayerInst where
  mkWeights : List Nat → List Int
  weights : Option (List Int)

/-- Modelled from the spec: the init body is not under src/; the init
docstring in the notebook says the method initializes each instance
once, returning newly created weights on the first call and
EMPTY_WEIGHTS on all subsequent calls. -/
def initInst (inst : LayerInst) (sig : List Nat) : WeightsOut × LayerInst :=
  match inst.weights with
  | none =>
      (WeightsOut.weights (inst.mkWeights sig),
        ⟨inst.mkWeights, some (inst.mkWeights sig)⟩)
  | some _ => (WeightsOut.emptyWeights, inst)

/-- C3: the first init call on an uninitialized instance creates and
returns its weights; every later init call returns the EMPTY_WEIGHTS
sentinel and leaves the instance, hence the stored weight values,
unchanged. -/
theorem init_idempotent (inst : LayerInst) (sig sig2 : List Nat)
    (h : inst.weights = none) :
    (initInst inst sig).1 = WeightsOut.weights (inst.mkWeights sig) ∧
    (initInst inst sig).2.weights = some (inst.mkWeights sig) ∧
    initInst (initInst inst sig).2 sig2 =
      (WeightsOut.emptyWeights, (initInst inst sig).2) := by
  obtain ⟨mk, w⟩ := inst
  cases w with
  | none => exact ⟨rfl, rfl, rfl⟩
  | some v => exact Option.noConfusion h

/-- A concrete layer instance used to witness initialization. -/
def instEx : LayerInst :=
  ⟨fun s => s.map Int.ofNat, none⟩

/-- Witness for C3 on a concrete uninitialized instance. -/
theorem init_idempotent_wit :
    (initInst instEx [2, 3]).1 = WeightsOut.weights (instEx.mkWeights [2, 3]) ∧
    (initInst instEx [2, 3]).2.weights = some (instEx.mkWeights [2, 3]) ∧
    initInst (initInst instEx [2, 3]).2 [7] =
      (WeightsOut.emptyWeights, (initInst instEx [2, 3]).2) :=
  init_idempotent instEx [2, 3] [7] rfl

/-- Whether an Except value carries a result rather than an error. -/
def isOkE {α : Type} : Except String α → Bool
  | Except.ok _ => true
  | Except.error _ => false

/-- The Flatten computation, translated from the function body shown in
the notebook: raise when the input rank does not exceed the number of
axes to keep, otherwise reshape to the kept axes followed by one merged
axis (the reshape target -1 resolves to the product of the dropped axis
lengths, and row-major data is unchanged by reshape). -/
def Flatten (k : Nat) (x : Tensor) : Except String Tensor :=
  if x.shape.length ≤ k then
    Except.error "Input rank must exceed the number of axes to keep."
  else
    Except.ok ⟨x.shape.take k ++ [(x.shape.drop k).prod], x.data⟩

/-- C7: Flatten with k axes to keep fails exactly when the input rank is
at most k; otherwise the result keeps the first k axes of the input and
merges all remaining axes into one final axis, preserving the data. -/
theorem flatten_spec (k : Nat) (x : Tensor) :
    (isOkE (Flatten k x) = false ↔ x.shape.length ≤ k) ∧
    (∀ y : Tensor, Flatten k x = Except.ok y →
      y.shape = x.shape.take k ++ [(x.shape.drop k).prod] ∧
      y.data = x.data) := by
  constructor
  · by_cases h : x.shape.length ≤ k <;> simp [Flatten, h, isOkE]
  · intro y hy
    by_cases h : x.shape.length ≤ k
    · rw [Flatten, if_pos h] at hy
      exact Except.noConfusion hy
    · rw [Flatten, if_neg h] at hy
      rw [← Except.ok.inj hy]
      exact ⟨rfl, rfl⟩

/-- The rank-three example tensor used with Flatten in the notebook. -/
def flattenExampleX : Tensor :=
  ⟨[2, 3, 3],
    [1, 2, 3, 10, 20, 30, 100, 200, 300, 4, 5, 6, 40, 50, 60, 400, 500, 600]⟩

/-- Witness for C7: keeping 3 of 3 axes fails, while keeping 1 axis of
the rank-three example merges the rest into shape [2, 9]. -/
theorem flatten_spec_wit :
    isOkE (Flatten 3 flattenExampleX) = false ∧
    ((⟨[2, 9], flattenExampleX.data⟩ : Tensor).shape =
        flattenExampleX.shape.take 1 ++ [(flattenExampleX.shape.drop 1).prod] ∧
      (⟨[2, 9], flattenExampleX.data⟩ : Tensor).data = flattenExampleX.data) :=
  ⟨(flatten_spec 3 flattenExampleX).1.mpr (by decide),
    (flatten_spec 1 flattenExampleX).2 ⟨[2, 9], flattenExampleX.data⟩ rfl⟩

/-- The declared-argument profile of a Python function wrapped by Fn:
its positional-parameter count and whether it declares default or
keyword arguments. -/
structure FuncSpec where
  nPositional : Nat
  hasDefaults : Bool
  hasKeywords : Bool

/-- Arity metadata of a layer produced by Fn. -/
structure FnMeta where
  n_in : Nat
  n_out : Nat
deriving DecidableEq, Repr

/-- Modelled from the spec: the Fn body is not under src/; per the Fn
docstring in the notebook and spec section 4.5, Fn fails when the
wrapped function declares default or keyword arguments, and otherwise
sets the input arity to the positional-parameter count and the output
arity to the supplied value. -/
def Fn (fs : FuncSpec) (n_out : Nat) : Except String FnMeta :=
  if fs.hasDefaults then
    Except.error "function must not have default arguments"
  else if fs.hasKeywords then
    Except.error "function must not have keyword arguments"
  else
    Except.ok ⟨fs.nPositional, n_out⟩

/-- Fn with the default output arity of one, as when n_out is omitted. -/
def Fn1 (fs : FuncSpec) : Except String FnMeta :=
  Fn fs 1

/-- C8: Fn succeeds exactly when the wrapped function has no default and
no keyword arguments; on success the layer input arity is the declared
positional-parameter count and the output arity is the supplied value,
which defaults to one when omitted. -/
theorem fn_arity (fs : FuncSpec) (n : Nat) :
    (isOkE (Fn fs n) = true ↔
      fs.hasDefaults = false ∧ fs.hasKeywords = false) ∧
    (∀ m : FnMeta, Fn fs n = Except.ok m →
      m.n_in = fs.nPositional ∧ m.n_out = n) ∧
    Fn1 fs = Fn fs 1 := by
  refine ⟨?_, ?_, rfl⟩
  · cases hd : fs.hasDefaults <;> cases hk : fs.hasKeywords <;>
      simp [Fn, hd, hk, isOkE]
  · intro m hm
    cases hd : fs.hasDefaults <;> cases hk : fs.hasKeywords <;>
      rw [Fn, hd, hk] at hm <;> simp at hm
    rw [← hm]
    exact ⟨rfl, rfl⟩

/-- Witness for C8: a two-positional-argument function with no default
and no keyword arguments yields a layer with two inputs and one output. -/
theorem fn_arity_wit :
    FnMeta.n_in ⟨2, 1⟩ = FuncSpec.nPositional ⟨2, false, false⟩ ∧
    FnMeta.n_out ⟨2, 1⟩ = 1 :=
  (fn_arity ⟨2, false, false⟩ 1).2.1 ⟨2, 1⟩ rfl

/-- Inputs to a direct layer call, packaged either as a tuple or as a
list of tensors. Modelled from the spec: the Layer call body is not
under src/; the notebook calls multi-input layers both on a tuple
(Example 7) and on a list (Example 8), normalizing both to the same
input sequence. -/
inductive Packaged where
  | tupleOf (xs : List Tensor)
  | listOf (xs : List Tensor)

/-- The tensor sequence carried by a packaged input. -/
def unpack : Packaged → List Tensor
  | Packaged.tupleOf xs => xs
  | Packaged.listOf xs => xs

/-- Direct call of a layer on packaged inputs. -/
def callPackaged (L : Layer) (p : Packaged) : List Tensor :=
  L.f (unpack p)

/-- C10: a layer with more than one input accepts its inputs packaged as
a tuple or as a list, and both packagings produce the same result. -/
theorem call_tuple_eq_list (L : Layer) (xs : List Tensor)
    (_h : 1 < L.n_in) :
    callPackaged L (Packaged.tupleOf xs) = callPackaged L (Packaged.listOf xs) :=
  rfl

/-- First input vector of the Gcd example in the notebook. -/
def gcdX0 : Tensor :=
  ⟨[10], [1, 2, 3, 4, 5, 6, 7, 8, 9, 10]⟩

/-- Second input vector of the Gcd example in the notebook. -/
def gcdX1 : Tensor :=
  ⟨[10], [11, 12, 13, 14, 15, 16, 17, 18, 19, 20]⟩

/-- Witness for C10: the two-input Gcd layer gives the same elementwise
gcd vector whether its inputs are packaged as a tuple or as a list. -/
theorem call_tuple_eq_list_wit :
    callPackaged gcdLayer (Packaged.tupleOf [gcdX0, gcdX1]) =
      callPackaged gcdLayer (Packaged.listOf [gcdX0, gcdX1]) ∧
    callPackaged gcdLayer (Packaged.tupleOf [gcdX0, gcdX1]) =
      [⟨[10], [1, 2, 1, 2, 5, 2, 1, 2, 1, 10]⟩] :=
  ⟨call_tuple_eq_list gcdLayer [gcdX0, gcdX1] (by decide), by decide⟩
